import Mathlib

/-!
Verification of `src/rust_lib/src/lib.rs`.

The library exports two pure functions over fixed-width integers:

* `add_numbers(a: i32, b: i32) -> i32`, returning `a + b` with the
  release-mode (wraparound) semantics of signed 32-bit addition;
* `factorial(n: u32) -> u64`, returning `1` when `n <= 1` and otherwise
  `(1..=n as u64).product()`, a left fold of release-mode (wraparound)
  unsigned 64-bit multiplication over the inclusive range `1..=n`.

Signed 32-bit values are embedded as `Int` in the range
`[-2^31, 2^31)` and unsigned 64-bit values as `Nat` below `2^64`;
overflow is made explicit with `% 2^32` and `% 2^64`.
-/

/-- The unsigned 64-bit modulus `2^64 = 18446744073709551616`. -/
def U64_MOD : Nat := 18446744073709551616

/-- Wraparound normalization of an integer to the signed 32-bit range
`[-2^31, 2^31)`: the result of a release-mode `i32` operation whose
mathematical value is `x`.  The constants are `2^31 = 2147483648` and
`2^32 = 4294967296`. -/
def wrap32 (x : Int) : Int := (x + 2147483648) % 4294967296 - 2147483648

/-- Embedding of `add_numbers(a: i32, b: i32) -> i32 { a + b }` with
release-mode wraparound semantics for the addition. -/
def add_numbers (a b : Int) : Int := wrap32 (a + b)

/-- Release-mode `u64` multiplication: the product reduced modulo `2^64`. -/
def wmul64 (a b : Nat) : Nat := a * b % U64_MOD

/-- Embedding of `factorial(n: u32) -> u64`:
`if n <= 1 { 1 } else { (1..=n as u64).product() }`, where
`Iterator::product` on `1..=n` is a left fold of `u64` multiplication
(wraparound in release mode) over `[1, 2, ..., n]` starting from `1`. -/
def factorial (n : Nat) : Nat :=
  if n ≤ 1 then 1
  else (List.range' 1 n).foldl wmul64 1

/-- Reference algorithm prescribed by the spec: an accumulating product over
the inclusive range `1..=n`, computed in increasing order from `1` to `n`
with wraparound 64-bit multiplication, starting from the empty product `1`. -/
def factorial_ref (n : Nat) : Nat := (List.range' 1 n).foldl wmul64 1

/-- Interpretation of an unsigned 32-bit residue (an integer in
`[0, 2^32)`) as a signed 32-bit integer, per the spec's description of the
wraparound sum. -/
def toSigned32 (u : Int) : Int := if u < 2147483648 then u else u - 4294967296

/-- Folding wraparound multiplication over a list is the plain product of the
list, times the initial accumulator, reduced modulo `2^64`. -/
lemma foldl_wmul64_eq (l : List Nat) : ∀ a : Nat,
    l.foldl wmul64 (a % U64_MOD) = a * l.prod % U64_MOD := by
  induction l with
  | nil => intro a; simp
  | cons x l ih =>
    intro a
    simp only [List.foldl_cons, List.prod_cons]
    have hx : wmul64 (a % U64_MOD) x = a * x % U64_MOD := by
      unfold wmul64; rw [Nat.mod_mul_mod]
    rw [hx, ih (a * x), Nat.mul_assoc]

/-- The plain product of `[1, 2, ..., n]` is `n !`. -/
lemma prod_range'_one (n : Nat) : (List.range' 1 n).prod = Nat.factorial n := by
  induction n with
  | zero => simp [Nat.factorial]
  | succ n ih =>
    rw [List.range'_concat, List.prod_append, ih]
    simp only [List.prod_cons, List.prod_nil, Nat.one_mul, Nat.mul_one,
      Nat.factorial_succ]
    ring

/-- The embedded `factorial` computes the mathematical factorial reduced
modulo `2^64`, for every input. -/
lemma factorial_mod (n : Nat) : factorial n = Nat.factorial n % U64_MOD := by
  unfold factorial
  split
  · next h =>
    rcases (by omega : n = 0 ∨ n = 1) with rfl | rfl <;> decide
  · next h =>
    have h2 := foldl_wmul64_eq (List.range' 1 n) 1
    rw [Nat.one_mul, prod_range'_one] at h2
    have h1 : (1 : Nat) % U64_MOD = 1 := by decide
    rw [h1] at h2
    exact h2

/-- C1: for every `n` in `[0, 20]`, `factorial n` is the exact mathematical
factorial, and the exact factorial fits in 64 bits (no overflow occurs). -/
theorem factorial_exact_up_to_20 (n : Nat) (h : n ≤ 20) :
    factorial n = Nat.factorial n ∧ Nat.factorial n < U64_MOD := by
  have hlt : Nat.factorial n < U64_MOD :=
    Nat.lt_of_le_of_lt (Nat.factorial_le h) (by decide)
  exact ⟨by rw [factorial_mod, Nat.mod_eq_of_lt hlt], hlt⟩

/-- Witness for C1 at `n = 20`. -/
theorem factorial_exact_up_to_20_witness :
    factorial 20 = Nat.factorial 20 ∧ Nat.factorial 20 < U64_MOD :=
  factorial_exact_up_to_20 20 (by decide)

/-- C2: `add_numbers a b` is the mathematical sum `a + b` reduced modulo
`2^32` and interpreted as a signed 32-bit integer, for every pair of
integers, in particular for every pair in the signed 32-bit range. -/
theorem add_numbers_wraparound (a b : Int) :
    add_numbers a b = toSigned32 ((a + b) % 4294967296) := by
  unfold add_numbers wrap32 toSigned32
  split <;> omega

/-- C3: for every `n ≥ 21`, `factorial n` is the exact mathematical
factorial reduced modulo `2^64` (a silent wraparound; the embedding is a
total function, so no trap or exception occurs). -/
theorem factorial_wraps_from_21 (n : Nat) (h : 21 ≤ n) :
    factorial n = Nat.factorial n % U64_MOD :=
  factorial_mod n

/-- Witness for C3 at `n = 21`. -/
theorem factorial_wraps_from_21_witness :
    factorial 21 = Nat.factorial 21 % U64_MOD :=
  factorial_wraps_from_21 21 (by decide)

/-- C4: the implemented `factorial` equals the spec's reference algorithm, a
left fold of wraparound 64-bit multiplication over `[1, ..., n]` starting
from `1`, for every input `n`. -/
theorem factorial_refines_spec_fold (n : Nat) :
    factorial n = factorial_ref n := by
  unfold factorial factorial_ref
  split
  · next h =>
    rcases (by omega : n = 0 ∨ n = 1) with rfl | rfl <;> decide
  · rfl

/-- C5: both operations are total, with every result a defined, representable
value: `add_numbers` always lands in the signed 32-bit range
`[-2^31, 2^31)`, and `factorial` always lands below `2^64`. -/
theorem operations_total :
    (∀ a b : Int,
      -2147483648 ≤ add_numbers a b ∧ add_numbers a b < 2147483648) ∧
    (∀ n : Nat, factorial n < U64_MOD) := by
  constructor
  · intro a b
    unfold add_numbers wrap32
    omega
  · intro n
    rw [factorial_mod]
    exact Nat.mod_lt _ (by decide)

/-- C6: the fixed input/output pairs asserted by the unit tests. -/
theorem fixed_test_vectors :
    add_numbers 2 3 = 5 ∧ add_numbers (-1) 1 = 0 ∧
    factorial 0 = 1 ∧ factorial 1 = 1 ∧
    factorial 5 = 120 ∧ factorial 10 = 3628800 := by
  decide

/-- C7: both operations are deterministic functions of their arguments alone:
equal arguments give equal results. -/
theorem operations_deterministic :
    (∀ a b a' b' : Int, a = a' → b = b' →
      add_numbers a b = add_numbers a' b') ∧
    (∀ n n' : Nat, n = n' → factorial n = factorial n') :=
  ⟨fun _ _ _ _ ha hb => by rw [ha, hb], fun _ _ h => by rw [h]⟩

/-- Witness for C7 at `add_numbers 2 3` and `factorial 5`. -/
theorem operations_deterministic_witness :
    add_numbers 2 3 = add_numbers 2 3 ∧ factorial 5 = factorial 5 :=
  ⟨operations_deterministic.1 2 3 2 3 rfl rfl,
   operations_deterministic.2 5 5 rfl⟩

/-- C8: `add_numbers` is commutative. -/
theorem add_numbers_comm (a b : Int) :
    add_numbers a b = add_numbers b a := by
  unfold add_numbers
  rw [Int.add_comm]

/-- C9: for every `n ≥ 1`, `factorial` satisfies the factorial recurrence
under wraparound arithmetic: `factorial n = n * factorial (n - 1) % 2^64`. -/
theorem factorial_recurrence (n : Nat) (h : 1 ≤ n) :
    factorial n = n * factorial (n - 1) % U64_MOD := by
  obtain ⟨m, rfl⟩ : ∃ m, n = m + 1 := ⟨n - 1, by omega⟩
  rw [factorial_mod, factorial_mod, Nat.add_sub_cancel, Nat.factorial_succ,
    Nat.mul_mod (m + 1) (Nat.factorial m),
    Nat.mul_mod (m + 1) (Nat.factorial m % U64_MOD), Nat.mod_mod]

/-- Witness for C9 at `n = 5`. -/
theorem factorial_recurrence_witness :
    factorial 5 = 5 * factorial 4 % U64_MOD :=
  factorial_recurrence 5 (by decide)

/-- C10: for every `n ≥ 66`, `factorial n = 0`: the 2-adic valuation of `n !`
is at least 64 there, so the exact factorial is divisible by `2^64` and the
wraparound result is zero. -/
theorem factorial_zero_from_66 (n : Nat) (h : 66 ≤ n) :
    factorial n = 0 := by
  rw [factorial_mod]
  have h66 : U64_MOD ∣ Nat.factorial 66 := by decide
  exact Nat.mod_eq_zero_of_dvd
    (h66.trans (Nat.factorial_dvd_factorial h))

/-- Witness for C10 at `n = 66`. -/
theorem factorial_zero_from_66_witness : factorial 66 = 0 :=
  factorial_zero_from_66 66 (by decide)
